import Mathlib

/-!
# Verification of the BotProxyPlugin correlation core (`main.py`)

A shallow embedding of the request/response correlation plugin:

* `_parse_actions` / `parseLine` — the action-descriptor parser (`main.py` 48-67),
* `rateLimitedCall` — the sliding-window rate limiter `_rate_limited` (72-80),
* `use_bot_action` — the dispatcher (97-136),
* `sleepDelay` / `wdWakeStep` — the expiry watchdog `_wait_timeout` (141-155),
* `scanPending` / `on_all_message` — the reply matcher (161-189),
* `terminate` — teardown (191-193),
* `raceStep` / `raceRun` — the cooperative interleaving of watchdog and matcher.

Python strings are embedded as `List Char` (`Str`), wall-clock time as `ℚ`,
chat identities (sender ids, group ids) as `Int`, and the mutable
`pending_requests` dict as an insertion-ordered association list.
-/

namespace BotProxy

/-- Python strings, embedded as their character lists. -/
abbrev Str := List Char

/-- Chat identities (QQ numbers, group numbers). -/
abbrev Ident := Int

/-- Wall-clock time in seconds (`time.time()` values). -/
abbrev Time := ℚ

/-- Coerce a Lean string literal to the embedding type. -/
def str (s : String) : Str := s.data

/-! ## Python string primitives used by the source -/

/-- `str.strip()`: drop leading and trailing whitespace. -/
def pyStrip (s : Str) : Str :=
  ((s.dropWhile Char.isWhitespace).reverse.dropWhile Char.isWhitespace).reverse

/-- Accumulator for a run of decimal digits; fails on a non-digit. -/
def decDigitsAux : Str → Nat → Option Nat
  | [], acc => some acc
  | c :: cs, acc =>
    if c.isDigit then decDigitsAux cs (10 * acc + (c.toNat - 48)) else none

/-- A nonempty all-digit run, as a number. -/
def decDigits : Str → Option Nat
  | [] => none
  | s => decDigitsAux s 0

/-- Model of Python `int()` on a decimal string: optional surrounding
whitespace, optional sign, then a nonempty digit run.  (Underscore digit
grouping and non-ASCII digits are not modelled.) -/
def pyInt (s : Str) : Option Int :=
  match pyStrip s with
  | [] => none
  | '+' :: ds => (decDigits ds).map Int.ofNat
  | '-' :: ds => (decDigits ds).map (fun n => -(n : Int))
  | ds => (decDigits ds).map Int.ofNat

/-- `s.split(sep, maxsplit)` for a one-character separator: `acc` holds the
current chunk reversed, the `Nat` is the remaining split budget; once it is
exhausted the rest of the string is one final chunk. -/
def splitMaxAux (sep : Char) : Nat → Str → Str → List Str
  | _, acc, [] => [acc.reverse]
  | 0, acc, rest => [acc.reverse ++ rest]
  | n + 1, acc, c :: cs =>
    if c = sep then acc.reverse :: splitMaxAux sep n [] cs
    else splitMaxAux sep (n + 1) (c :: acc) cs

/-- Python `s.split(sep, maxsplit)` for a one-character separator. -/
def splitMax (sep : Char) (maxsplit : Nat) (s : Str) : List Str :=
  splitMaxAux sep maxsplit [] s

/-- Python `s.split(sep)` (unbounded): at most `s.length` splits can occur. -/
def splitAll (sep : Char) (s : Str) : List Str :=
  splitMaxAux sep s.length [] s

/-- `a in b` on Python strings needs a prefix test at every suffix. -/
def isPrefixOfStr : Str → Str → Bool
  | [], _ => true
  | _ :: _, [] => false
  | a :: as, b :: bs => a = b && isPrefixOfStr as bs

/-- Python `needle in hay` on strings: substring containment, case-sensitive. -/
def pyInStr (needle : Str) : Str → Bool
  | [] => isPrefixOfStr needle []
  | c :: rest => isPrefixOfStr needle (c :: rest) || pyInStr needle rest

/-! ## Action registry (`_parse_actions`, `main.py` 48-67) -/

/-- One parsed action descriptor.  The source also stores a fresh
`uuid.uuid4()` under key `"id"`; it is never read by any consumer and is
omitted here. -/
structure Action where
  bot_id : Int
  groups : List Int
  command : Str
  return_mode : Str
  desc : Str
  timeout : Int
deriving DecidableEq, Repr

/-- `[int(g) for g in parts]`: all-or-nothing integer conversion — one bad
group aborts the whole line (the comprehension raises). -/
def intList : List Str → Option (List Int)
  | [] => some []
  | g :: gs =>
    match pyInt g with
    | none => none
    | some n => (intList gs).map (fun l => n :: l)

/-- `[int(g) for g in groups.split(",") if g]`: split on commas, skip empty
chunks, convert the rest. -/
def parseGroups (s : Str) : Option (List Int) :=
  intList ((splitAll ',' s).filter (fun g => g ≠ []))

/-- One iteration of the `_parse_actions` loop body, `main.py` 52-63: unpack
`line.split(";", 4)` into exactly five fields (any other arity raises and the
line is skipped), convert `botQQ` and the group list to integers, strip the
mode and description.  `timeout` is the single global configured value
(`int(self.config.get("timeout", 30))`). -/
def parseLine (timeout : Int) (line : Str) : Option Action :=
  match splitMax ';' 4 line with
  | [botQQ, groups, command, mode, desc] =>
    match pyInt botQQ, parseGroups groups with
    | some b, some gs =>
      some { bot_id := b, groups := gs, command := command,
             return_mode := pyStrip mode, desc := pyStrip desc,
             timeout := timeout }
    | _, _ => none
  | _ => none

/-- `_parse_actions`, `main.py` 48-67: best-effort per line, a failing line is
logged and skipped. -/
def parse_actions (timeout : Int) : List Str → List Action
  | [] => []
  | line :: rest =>
    match parseLine timeout line with
    | some a => a :: parse_actions timeout rest
    | none => parse_actions timeout rest

/-! ## Rate limiter (`_rate_limited`, `main.py` 72-80) -/

/-- The pruning comprehension, `main.py` 74-76: keep exactly the timestamps
`t` with `now - t < 60`. -/
def prune (now : Time) (ts : List Time) : List Time :=
  ts.filter (fun t => decide (now - t < 60))

/-- `_rate_limited`, `main.py` 72-80: prune, then reject (`true`) without
recording when the window already holds `rate_per_minute` timestamps,
otherwise record `now` and accept (`false`).  Returns the flag together with
the new `request_timestamps` state. -/
def rateLimitedCall (rate_per_minute : Int) (now : Time) (ts : List Time) :
    Bool × List Time :=
  let ts' := prune now ts
  if rate_per_minute ≤ (ts'.length : Int) then (true, ts')
  else (false, ts' ++ [now])

/-! ## Correlation table (`pending_requests`) -/

/-- One `pending_requests` entry, `main.py` 117-123. -/
structure PendingInfo where
  bot_id : Ident
  group_id : Ident
  source_group : Ident
  return_mode : Str
  expire_at : Time
deriving DecidableEq, Repr

/-- The `pending_requests` dict: an insertion-ordered association list from
request identifier to entry.  Keys are fresh `uuid4` strings, so they are
pairwise distinct by construction. -/
abbrev Table := List (String × PendingInfo)

/-- Dict lookup (`pending_requests.get(rid)` / `rid in pending_requests`). -/
def tblGet (t : Table) (rid : String) : Option PendingInfo :=
  (t.find? (fun p => decide (p.1 = rid))).map Prod.snd

/-- Dict removal (`pending_requests.pop(rid, None)`): drops every binding of
`rid`, a no-op when the key is absent. -/
def tblPop (t : Table) (rid : String) : Table :=
  t.filter (fun p => decide (p.1 ≠ rid))

/-- Dict insertion of a fresh key (`pending_requests[request_id] = {...}`,
`main.py` 117): a new key appends in insertion order. -/
def tblInsert (t : Table) (rid : String) (info : PendingInfo) : Table :=
  t ++ [(rid, info)]

/-! ## Dispatcher (`use_bot_action`, `main.py` 85-136) -/

/-- `"🚦 请求过于频繁"`, `main.py` 98. -/
def rateLimitNotice : Str := str "🚦 请求过于频繁"

/-- `"❌ 未找到匹配的功能"`, `main.py` 107. -/
def notFoundNotice : Str := str "❌ 未找到匹配的功能"

/-- The `"@"` return mode, `main.py` 175. -/
def atMode : Str := str "@"

/-- `f"🤖 结果：\n{msg}"`, `main.py` 185. -/
def resultMsg (msg : Str) : Str := str "🤖 结果：\n" ++ msg

/-- Mutable plugin state touched by a dispatch: `request_timestamps` and
`pending_requests`. -/
structure PluginState where
  request_timestamps : List Time
  pending_requests : Table
deriving DecidableEq, Repr

/-- The four ways a `use_bot_action` call can end. -/
inductive Outcome where
  | rateLimited
  | notFound
  | unreachable
  | dispatched (request_id : String)
deriving DecidableEq, Repr

/-- Everything one `use_bot_action` call does: its outcome, the notice
yielded to the caller (if any), the outbound `send_group_message` call (if
any), the watchdog task created (if any), and the updated state. -/
structure DispatchResult where
  outcome : Outcome
  notice : Option Str
  send : Option (Ident × Str)
  watchdog : Option String
  state : PluginState
deriving DecidableEq, Repr

/-- `use_bot_action`, `main.py` 85-136.  `unreachable_message` is the
configured notice for an action without target groups; `actions` is the
parsed catalog; `source_group` is `event.get_group_id()`; `pick` models
`random.choice` as an arbitrary index into the nonempty group list; `fresh`
is the `uuid4` request identifier.  The two `time.time()` reads inside one
call (rate limiter and `expire_at`) are modelled by the same `now`. -/
def use_bot_action (rate_per_minute : Int) (unreachable_message : Str)
    (actions : List Action) (st : PluginState) (action_desc : Str)
    (source_group : Ident) (now : Time) (pick : Nat) (fresh : String) :
    DispatchResult :=
  let r := rateLimitedCall rate_per_minute now st.request_timestamps
  let st' : PluginState :=
    { request_timestamps := r.2, pending_requests := st.pending_requests }
  if r.1 then
    { outcome := Outcome.rateLimited, notice := some rateLimitNotice,
      send := none, watchdog := none, state := st' }
  else
    match actions.find? (fun a => pyInStr action_desc a.desc) with
    | none =>
      { outcome := Outcome.notFound, notice := some notFoundNotice,
        send := none, watchdog := none, state := st' }
    | some action =>
      if action.groups = [] then
        { outcome := Outcome.unreachable, notice := some unreachable_message,
          send := none, watchdog := none, state := st' }
      else
        let target_group := action.groups.getD (pick % action.groups.length) 0
        let info : PendingInfo :=
          { bot_id := action.bot_id, group_id := target_group,
            source_group := source_group, return_mode := action.return_mode,
            expire_at := now + (action.timeout : Time) }
        { outcome := Outcome.dispatched fresh, notice := none,
          send := some (target_group, action.command), watchdog := some fresh,
          state := { request_timestamps := r.2,
                     pending_requests := tblInsert st.pending_requests fresh info } }

/-! ## Expiry watchdog (`_wait_timeout`, `main.py` 141-155) -/

/-- `max(0, expire_at - time.time())`, `main.py` 146-148: the sleep duration,
never negative. -/
def sleepDelay (expire_at now : Time) : Time := max 0 (expire_at - now)

/-- The absolute time at which a watchdog started at `start` wakes. -/
def wdWakeTime (expire_at start : Time) : Time := start + sleepDelay expire_at start

/-- The post-sleep body of `_wait_timeout`, `main.py` 150-155: if the request
identifier is still present, remove it and send the timeout message to the
`source_group` captured before the sleep (`info0`); otherwise do nothing.
Returns the new table and the outbound send, if any. -/
def wdWakeStep (timeout_message : Str) (pending : Table) (rid : String)
    (info0 : PendingInfo) : Table × Option (Ident × Str) :=
  if (tblGet pending rid).isSome then
    (tblPop pending rid, some (info0.source_group, timeout_message))
  else
    (pending, none)

/-! ## Reply matcher (`on_all_message`, `main.py` 161-189) -/

/-- The `for`/`continue` scan of `main.py` 166-177: first entry, in table
order, that survives all four `continue` guards. -/
def scanPending (sender group : Ident) (at_me : Bool) (now : Time) :
    Table → Option (String × PendingInfo)
  | [] => none
  | (rid, info) :: rest =>
    if sender ≠ info.bot_id then scanPending sender group at_me now rest
    else if group ≠ info.group_id then scanPending sender group at_me now rest
    else if now > info.expire_at then scanPending sender group at_me now rest
    else if info.return_mode = atMode ∧ at_me = false then
      scanPending sender group at_me now rest
    else some (rid, info)

/-- `on_all_message`, `main.py` 161-189: scan the pending table against the
inbound message; on the first hit pop the entry, send the wrapped result to
its `source_group`, and stop the event (`true`); otherwise leave everything
unchanged (`false`). -/
def on_all_message (pending : Table) (sender group : Ident) (at_me : Bool)
    (now : Time) (msg : Str) : Table × Option (Ident × Str) × Bool :=
  match scanPending sender group at_me now pending with
  | none => (pending, none, false)
  | some (rid, info) =>
    (tblPop pending rid, some (info.source_group, resultMsg msg), true)

/-- `terminate`, `main.py` 191-193: clear `pending_requests`. -/
def terminate (st : PluginState) : PluginState :=
  { request_timestamps := st.request_timestamps, pending_requests := [] }

/-! ## The watchdog / matcher race (claim C1)

Cooperative scheduling: the presence check plus `pop` of either consumer runs
without an intervening suspension point, so each consumer's check-and-remove
is one atomic step; the steps of the two consumers interleave arbitrarily. -/

/-- One scheduler event touching a given request: its watchdog wakes, or an
inbound message is processed by `on_all_message`. -/
inductive RaceEv where
  | wdFire
  | inbound (sender group : Ident) (at_me : Bool) (now : Time) (body : Str)
deriving DecidableEq, Repr

/-- State of the race: the pending table and every message delivered so far
(in order). -/
structure RaceState where
  pending : Table
  sent : List (Ident × Str)
deriving DecidableEq, Repr

/-- Execute one event against the state, for the request `rid` whose watchdog
captured `info0` at start. -/
def raceStep (timeout_message : Str) (rid : String) (info0 : PendingInfo)
    (s : RaceState) : RaceEv → RaceState
  | RaceEv.wdFire =>
    let r := wdWakeStep timeout_message s.pending rid info0
    { pending := r.1, sent := s.sent ++ r.2.toList }
  | RaceEv.inbound sender group at_me now body =>
    let r := on_all_message s.pending sender group at_me now body
    { pending := r.1, sent := s.sent ++ r.2.1.toList }

/-- Execute a whole interleaving. -/
def raceRun (timeout_message : Str) (rid : String) (info0 : PendingInfo)
    (s : RaceState) (evs : List RaceEv) : RaceState :=
  evs.foldl (raceStep timeout_message rid info0) s

/-- A delivery the race may legitimately produce for this request: to its
`source_group`, and either the timeout message or a wrapped result. -/
def goodSend (timeout_message : Str) (info : PendingInfo)
    (m : Ident × Str) : Prop :=
  m.1 = info.source_group ∧
    (m.2 = timeout_message ∨ ∃ body, m.2 = resultMsg body)

/-! ## Spec-side predicates for comparison -/

/-- The reply-acceptance condition as one four-way conjunction: sender is the
expected bot, group is the target group, the entry is not yet expired, and
in `"@"` mode the message is addressed to the local bot.  Compared against
the sequential `continue` guards of `scanPending`. -/
def entryMatches (sender group : Ident) (at_me : Bool) (now : Time)
    (info : PendingInfo) : Bool :=
  decide (sender = info.bot_id) && decide (group = info.group_id) &&
    decide (now ≤ info.expire_at) && (decide (info.return_mode ≠ atMode) || at_me)

/-- The notice each `use_bot_action` failure branch yields. -/
def failureNotice (unreachable_message : Str) : Outcome → Option Str
  | Outcome.rateLimited => some rateLimitNotice
  | Outcome.notFound => some notFoundNotice
  | Outcome.unreachable => some unreachable_message
  | Outcome.dispatched _ => none

/-- Modelled from the claim's words, for comparison with `rateLimitedCall`:
"first drops all recorded timestamps strictly older than 60 seconds before
the current time" — i.e. keeps `t` with `now - t ≤ 60` — then rejects
without recording when the remaining count is at least the limit, else
records `now` and accepts. -/
def rateLimitedClaimed (rate_per_minute : Int) (now : Time) (ts : List Time) :
    Bool × List Time :=
  let ts' := ts.filter (fun t => decide (now - t ≤ 60))
  if rate_per_minute ≤ (ts'.length : Int) then (true, ts')
  else (false, ts' ++ [now])

/-! ## Helper lemmas -/

/-- The sequential `continue` guards of the matcher loop compute the first
entry satisfying the four-way conjunction `entryMatches`. -/
theorem scanPending_eq_find? (sender group : Ident) (at_me : Bool)
    (now : Time) (t : Table) :
    scanPending sender group at_me now t =
      t.find? (fun p => entryMatches sender group at_me now p.2) := by
  induction t with
  | nil => rfl
  | cons p rest ih =>
    obtain ⟨rid, info⟩ := p
    rw [List.find?_cons]
    by_cases h1 : sender = info.bot_id
    · have c1 : ¬ (sender ≠ info.bot_id) := not_not_intro h1
      by_cases h2 : group = info.group_id
      · have c2 : ¬ (group ≠ info.group_id) := not_not_intro h2
        by_cases h3 : now ≤ info.expire_at
        · have h3' : ¬ (now > info.expire_at) := not_lt.mpr h3
          by_cases h4 : info.return_mode = atMode ∧ at_me = false
          · have hm : entryMatches sender group at_me now info = false := by
              simp [entryMatches, h4.1, h4.2]
            simp only [hm, scanPending]
            simp [c1, c2, h3', h4]
            exact h4.2 ▸ ih
          · have hm : entryMatches sender group at_me now info = true := by
              rcases not_and_or.mp h4 with h | h
              · simp [entryMatches, h1, h2, h3, h]
              · have hat : at_me = true := by
                  cases at_me
                  · exact absurd rfl h
                  · rfl
                simp [entryMatches, h1, h2, h3, hat]
            simp only [hm, scanPending]
            simp [c1, c2, h3', h4]
        · have hm : entryMatches sender group at_me now info = false := by
            simp [entryMatches, h3]
          simp only [hm, scanPending]
          simp [c1, c2, not_le.mp h3, ih]
      · have hm : entryMatches sender group at_me now info = false := by
          simp [entryMatches, h2]
        simp only [hm, scanPending]
        simp [c1, h2, ih]
    · have hm : entryMatches sender group at_me now info = false := by
        simp [entryMatches, h1]
      simp only [hm, scanPending]
      simp [h1, ih]

/-- `raceRun` unfolding. -/
theorem raceRun_cons (tm : Str) (rid : String) (info : PendingInfo)
    (s : RaceState) (e : RaceEv) (es : List RaceEv) :
    raceRun tm rid info s (e :: es) =
      raceRun tm rid info (raceStep tm rid info s e) es := rfl

/-- Once the key is gone, neither consumer does anything: one event. -/
theorem raceStep_absent (tm : Str) (rid : String) (info : PendingInfo)
    (sent : List (Ident × Str)) (e : RaceEv) :
    raceStep tm rid info ⟨[], sent⟩ e = ⟨[], sent⟩ := by
  cases e with
  | wdFire => simp [raceStep, wdWakeStep, tblGet]
  | inbound sender group at_me now body =>
    simp [raceStep, on_all_message, scanPending]

/-- Once the key is gone, neither consumer does anything: whole traces. -/
theorem raceRun_absent (tm : Str) (rid : String) (info : PendingInfo)
    (sent : List (Ident × Str)) (evs : List RaceEv) :
    raceRun tm rid info ⟨[], sent⟩ evs = ⟨[], sent⟩ := by
  induction evs with
  | nil => rfl
  | cons e es ih => rw [raceRun_cons, raceStep_absent]; exact ih

/-- A watchdog firing while the entry is present consumes it and delivers
the timeout message. -/
theorem raceStep_present_wd (tm : Str) (rid : String) (info : PendingInfo) :
    raceStep tm rid info ⟨[(rid, info)], []⟩ RaceEv.wdFire =
      ⟨[], [(info.source_group, tm)]⟩ := by
  simp [raceStep, wdWakeStep, tblGet, tblPop, List.find?_cons]

/-- An inbound message processed while the entry is present either leaves
everything unchanged or consumes the entry and delivers the result. -/
theorem raceStep_present_inbound (tm : Str) (rid : String) (info : PendingInfo)
    (sender group : Ident) (at_me : Bool) (now : Time) (body : Str) :
    raceStep tm rid info ⟨[(rid, info)], []⟩
        (RaceEv.inbound sender group at_me now body) = ⟨[(rid, info)], []⟩ ∨
    raceStep tm rid info ⟨[(rid, info)], []⟩
        (RaceEv.inbound sender group at_me now body) =
      ⟨[], [(info.source_group, resultMsg body)]⟩ := by
  simp only [raceStep, on_all_message, scanPending_eq_find?]
  cases hm : entryMatches sender group at_me now info with
  | false => left; simp [List.find?_cons, hm]
  | true => right; simp [List.find?_cons, hm, tblPop, List.filter]

/-- Python `in` on strings is substring containment (prefix part). -/
theorem isPrefixOfStr_iff (n : Str) : ∀ h : Str,
    (isPrefixOfStr n h = true ↔ ∃ t, h = n ++ t) := by
  induction n with
  | nil => intro h; simp [isPrefixOfStr]
  | cons c cs ih =>
    intro h
    cases h with
    | nil =>
      simp [isPrefixOfStr]
    | cons d ds =>
      simp only [isPrefixOfStr, Bool.and_eq_true, decide_eq_true_eq, ih ds,
        List.cons_append, List.cons.injEq]
      constructor
      · rintro ⟨rfl, t, rfl⟩
        exact ⟨t, rfl, rfl⟩
      · rintro ⟨t, rfl, rfl⟩
        exact ⟨rfl, t, rfl⟩

/-- Python `in` on strings is substring containment. -/
theorem pyInStr_iff (n : Str) : ∀ h : Str,
    (pyInStr n h = true ↔ ∃ l₁ l₂, h = l₁ ++ n ++ l₂) := by
  intro h
  induction h with
  | nil =>
    simp only [pyInStr, isPrefixOfStr_iff]
    constructor
    · rintro ⟨t, ht⟩
      exact ⟨[], t, ht⟩
    · rintro ⟨l₁, l₂, hl⟩
      rcases List.append_eq_nil.mp (List.append_eq_nil.mp hl.symm).1 with ⟨h1, h2⟩
      exact ⟨l₂, by simp_all⟩
  | cons c cs ih =>
    rw [pyInStr]
    simp only [Bool.or_eq_true, isPrefixOfStr_iff, ih]
    constructor
    · rintro (⟨t, ht⟩ | ⟨l₁, l₂, hl⟩)
      · exact ⟨[], t, by simpa using ht⟩
      · exact ⟨c :: l₁, l₂, by simp [hl]⟩
    · rintro ⟨l₁, l₂, hl⟩
      cases l₁ with
      | nil => exact Or.inl ⟨l₂, by simpa using hl⟩
      | cons x xs =>
        right
        rcases List.cons.injEq c cs x (xs ++ n ++ l₂) ▸ hl with ⟨rfl, h2⟩
        exact ⟨xs, l₂, by simpa using h2⟩

/-- The per-line loop is a `filterMap`. -/
theorem parse_actions_eq_filterMap (t : Int) (lines : List Str) :
    parse_actions t lines = lines.filterMap (parseLine t) := by
  induction lines with
  | nil => rfl
  | cons l rest ih =>
    cases hl : parseLine t l with
    | none => simp [parse_actions, hl, ih]
    | some a => simp [parse_actions, hl, ih]

/-- Parsing distributes over concatenation of line batches. -/
theorem parse_actions_append (t : Int) (l₁ l₂ : List Str) :
    parse_actions t (l₁ ++ l₂) =
      parse_actions t l₁ ++ parse_actions t l₂ := by
  simp [parse_actions_eq_filterMap, List.filterMap_append]

/-- Every successfully parsed action carries the timeout the parser was
given. -/
theorem parseLine_timeout (t : Int) (line : Str) (a : Action)
    (h : parseLine t line = some a) : a.timeout = t := by
  unfold parseLine at h
  split at h
  · split at h
    · injection h with h2
      subst h2
      rfl
    · cases h
  · cases h

/-! ## Claims -/

/-- C1: for every pending request inserted by a successful dispatch, across
all cooperative interleavings of the watchdog firing and inbound messages
arriving, exactly one delivery is made to its `source_group` — either the
result message or the timeout message — never zero and never two; whichever
event removes the key first delivers, and the other observes absence and
does nothing (encoded in `wdWakeStep` / `on_all_message`, whose steps the
trace interleaves). -/
theorem claim_C1_exactly_one_delivery (tm : Str) (rid : String)
    (info : PendingInfo) (evs : List RaceEv)
    (hwd : RaceEv.wdFire ∈ evs) :
    (raceRun tm rid info ⟨[(rid, info)], []⟩ evs).pending = [] ∧
    (raceRun tm rid info ⟨[(rid, info)], []⟩ evs).sent.length = 1 ∧
    ∀ m ∈ (raceRun tm rid info ⟨[(rid, info)], []⟩ evs).sent,
      goodSend tm info m := by
  induction evs with
  | nil => cases hwd
  | cons e es ih =>
    rw [raceRun_cons]
    cases e with
    | wdFire =>
      rw [raceStep_present_wd, raceRun_absent]
      refine ⟨rfl, rfl, ?_⟩
      intro m hm
      simp only [List.mem_singleton] at hm
      subst hm
      exact ⟨rfl, Or.inl rfl⟩
    | inbound sender group at_me now body =>
      rcases raceStep_present_inbound tm rid info sender group at_me now body
        with h | h
      · rw [h]
        apply ih
        rcases List.mem_cons.mp hwd with h' | h'
        · cases h'
        · exact h'
      · rw [h, raceRun_absent]
        refine ⟨rfl, rfl, ?_⟩
        intro m hm
        simp only [List.mem_singleton] at hm
        subst hm
        exact ⟨rfl, Or.inr ⟨body, rfl⟩⟩

/-- C1 witness: a trace where only the watchdog fires yields exactly one
delivery. -/
theorem claim_C1_exactly_one_delivery_witness :
    RaceEv.wdFire ∈ [RaceEv.wdFire] ∧
    (raceRun (str "TO") "r" ⟨1, 2, 9, [], 20⟩
        ⟨[("r", ⟨1, 2, 9, [], 20⟩)], []⟩ [RaceEv.wdFire]).sent.length = 1 :=
  ⟨List.mem_singleton.mpr rfl,
   (claim_C1_exactly_one_delivery (str "TO") "r" ⟨1, 2, 9, [], 20⟩
      [RaceEv.wdFire] (List.mem_singleton.mpr rfl)).2.1⟩

/-- C2: the reply matcher accepts a message for a pending entry iff all four
conditions hold — sender equals `bot_id`, group equals `group_id`, the
current time is not past `expire_at`, and in `"@"` mode the message is
addressed to the local bot (`entryMatches`); it resolves only the first
matching entry in table order, removes exactly that entry, sends the result
to its `source_group`, and stops; if any condition fails for every entry the
table is unchanged and nothing is sent. -/
theorem claim_C2_matching (pending : Table) (sender group : Ident)
    (at_me : Bool) (now : Time) (msg : Str) :
    scanPending sender group at_me now pending =
      pending.find? (fun p => entryMatches sender group at_me now p.2) ∧
    on_all_message pending sender group at_me now msg =
      (match pending.find?
          (fun p => entryMatches sender group at_me now p.2) with
       | none => (pending, none, false)
       | some (rid, info) =>
         (tblPop pending rid, some (info.source_group, resultMsg msg), true)) := by
  refine ⟨scanPending_eq_find? sender group at_me now pending, ?_⟩
  unfold on_all_message
  rw [scanPending_eq_find?]

/-- C2 witness: the characterization applied to a concrete one-entry
table. -/
theorem claim_C2_matching_witness :
    scanPending 1 2 false 10 [("r", (⟨1, 2, 9, [], 20⟩ : PendingInfo))] =
      List.find? (fun p => entryMatches 1 2 false 10 p.2)
        [("r", (⟨1, 2, 9, [], 20⟩ : PendingInfo))] :=
  (claim_C2_matching [("r", ⟨1, 2, 9, [], 20⟩)] 1 2 false 10 (str "pong")).1

/-- C3 counterexample: the claim says the limiter "drops all recorded
timestamps strictly older than 60 seconds before the current time", i.e.
keeps a timestamp whose age is exactly 60 seconds (`rateLimitedClaimed`).
The code keeps only `now - t < 60`, so at `now = 60`, `ts = [0]`,
`rate_per_minute = 1` the code prunes the timestamp and accepts the call,
while the claimed procedure keeps it and rejects. -/
theorem claim_C3_counterexample :
    (rateLimitedCall 1 60 [0]).1 = false ∧
    (rateLimitedClaimed 1 60 [0]).1 = true := by
  constructor
  · norm_num [rateLimitedCall, prune, List.filter]
  · norm_num [rateLimitedClaimed, List.filter]

/-- C3 (amended): each call first drops exactly the recorded timestamps at
least 60 seconds old (it keeps `t` iff `now - t < 60`), then rejects without
recording the call if at least `rate_per_minute` timestamps remain, and
otherwise records `now` and accepts; hence the `(N+1)`-th attempt within a
60-second sliding window is rejected, and the first attempt at or after the
moment the oldest recorded timestamp reaches age 60 is accepted again
(provided fewer than `N` younger ones remain). -/
theorem claim_C3_rate_window (N : Int) (now : Time) (ts : List Time) :
    (∀ t ∈ ts, (t ∈ prune now ts ↔ now - t < 60)) ∧
    (N ≤ ((prune now ts).length : Int) →
      rateLimitedCall N now ts = (true, prune now ts)) ∧
    (((prune now ts).length : Int) < N →
      rateLimitedCall N now ts = (false, prune now ts ++ [now])) := by
  refine ⟨?_, ?_, ?_⟩
  · intro t ht
    simp [prune, List.mem_filter, ht]
  · intro h
    simp only [rateLimitedCall]
    rw [if_pos h]
  · intro h
    simp only [rateLimitedCall]
    rw [if_neg (not_le.mpr h)]

/-- C3 witness: at the counterexample input the amended contract says the
call is accepted and recorded. -/
theorem claim_C3_rate_window_witness :
    rateLimitedCall 1 60 [0] = (false, prune 60 [0] ++ [60]) :=
  (claim_C3_rate_window 1 60 [0]).2.2
    (by norm_num [prune, List.filter])

/-- C4: every dispatch call that ends in a failure branch — the rate limiter
rejects, no action's `desc` contains the capability description, or the
matched action's `groups` list is empty — leaves `pending_requests`
unchanged, issues no outbound send, creates no watchdog, and yields exactly
the corresponding notice. -/
theorem claim_C4_failure_frame (rpm : Int) (um : Str) (actions : List Action)
    (st : PluginState) (d : Str) (sg : Ident) (now : Time) (pick : Nat)
    (fresh : String) (r : DispatchResult)
    (hr : use_bot_action rpm um actions st d sg now pick fresh = r)
    (h : (rateLimitedCall rpm now st.request_timestamps).1 = true ∨
         ((rateLimitedCall rpm now st.request_timestamps).1 = false ∧
           actions.find? (fun a => pyInStr d a.desc) = none) ∨
         ((rateLimitedCall rpm now st.request_timestamps).1 = false ∧
           ∃ a, actions.find? (fun a => pyInStr d a.desc) = some a ∧
             a.groups = [])) :
    r.state.pending_requests = st.pending_requests ∧ r.send = none ∧
      r.watchdog = none ∧ r.notice = failureNotice um r.outcome ∧
      (r.outcome = Outcome.rateLimited ∨ r.outcome = Outcome.notFound ∨
        r.outcome = Outcome.unreachable) := by
  subst hr
  rcases h with hlim | ⟨hlim, hfind⟩ | ⟨hlim, a, hfind, hg⟩
  · simp [use_bot_action, hlim, failureNotice]
  · simp [use_bot_action, hlim, hfind, failureNotice]
  · simp [use_bot_action, hlim, hfind, hg, failureNotice]

/-- C4 witness: with `rate_per_minute = 0` the very first call is rate
limited and has no side effect. -/
theorem claim_C4_failure_frame_witness :
    use_bot_action 0 [] [] ⟨[], []⟩ [] 0 0 0 "w" =
      { outcome := Outcome.rateLimited, notice := some rateLimitNotice,
        send := none, watchdog := none, state := ⟨[], []⟩ } ∧
    (rateLimitedCall 0 0 ([] : List Time)).1 = true ∧
    ({ outcome := Outcome.rateLimited, notice := some rateLimitNotice,
       send := none, watchdog := none,
       state := ⟨[], []⟩ } : DispatchResult).notice =
      failureNotice []
        ({ outcome := Outcome.rateLimited, notice := some rateLimitNotice,
           send := none, watchdog := none,
           state := ⟨[], []⟩ } : DispatchResult).outcome :=
  ⟨rfl, rfl,
   (claim_C4_failure_frame 0 [] [] ⟨[], []⟩ [] 0 0 0 "w" _ rfl
      (Or.inl rfl)).2.2.2.1⟩

/-- C5: the watchdog sleeps for exactly `max 0 (expire_at - now)` — never a
negative delay — and wakes no earlier than `T` seconds after dispatch when
`expire_at = dispatch + T`; a watchdog started at or after `expire_at`
sleeps zero seconds. -/
theorem claim_C5_watchdog_delay (dispatch T start expire : Time)
    (h : expire = dispatch + T) :
    0 ≤ sleepDelay expire start ∧
    dispatch + T ≤ wdWakeTime expire start ∧
    (expire ≤ start → sleepDelay expire start = 0) := by
  subst h
  refine ⟨le_max_left 0 _, ?_, ?_⟩
  · have hle : dispatch + T - start ≤ sleepDelay (dispatch + T) start :=
      le_max_right 0 _
    have := add_le_add_left hle start
    simpa [wdWakeTime, add_comm] using this
  · intro hexp
    simp [sleepDelay, max_eq_left, sub_nonpos.mpr hexp]

/-- C5 witness: a watchdog started 2 seconds late (`start = 7`,
`expire_at = 5`) sleeps zero seconds, and wake time is at least
dispatch + T. -/
theorem claim_C5_watchdog_delay_witness :
    (5 : Time) = 0 + 5 ∧
    (0 ≤ sleepDelay 5 7 ∧ (0 : Time) + 5 ≤ wdWakeTime 5 7 ∧
      ((5 : Time) ≤ 7 → sleepDelay 5 7 = 0)) :=
  ⟨by norm_num, claim_C5_watchdog_delay 0 5 7 5 (by norm_num)⟩

/-- C6: capability lookup is case-sensitive substring containment of the
description in an action's `desc` (`pyInStr`), the first action in
registration order wins, and the dispatcher returns not-found exactly when
no action's `desc` contains the description (and the call was not rate
limited first). -/
theorem claim_C6_selection (rpm : Int) (um : Str) (actions : List Action)
    (st : PluginState) (d : Str) (sg : Ident) (now : Time) (pick : Nat)
    (fresh : String) :
    (∀ needle hay : Str,
        pyInStr needle hay = true ↔ ∃ l₁ l₂, hay = l₁ ++ needle ++ l₂) ∧
    (actions.find? (fun a => pyInStr d a.desc) = none ↔
        ∀ a ∈ actions, pyInStr d a.desc = false) ∧
    (∀ a : Action, actions.find? (fun a => pyInStr d a.desc) = some a ↔
        pyInStr d a.desc = true ∧ ∃ l₁ l₂, actions = l₁ ++ a :: l₂ ∧
          ∀ b ∈ l₁, pyInStr d b.desc = false) ∧
    ((use_bot_action rpm um actions st d sg now pick fresh).outcome =
        Outcome.notFound ↔
      (rateLimitedCall rpm now st.request_timestamps).1 = false ∧
        ∀ a ∈ actions, pyInStr d a.desc = false) := by
  refine ⟨pyInStr_iff, ?_, ?_, ?_⟩
  · rw [List.find?_eq_none]
    simp
  · intro a
    rw [List.find?_eq_some]
    simp
  · cases hlim : (rateLimitedCall rpm now st.request_timestamps).1 with
    | true => simp [use_bot_action, hlim]
    | false =>
      cases hfind : actions.find? (fun a => pyInStr d a.desc) with
      | none =>
        have hall := List.find?_eq_none.mp hfind
        simp only [Bool.not_eq_true] at hall
        simp [use_bot_action, hlim, hfind]
        exact hall
      | some a =>
        have hpa : pyInStr d a.desc = true := by
          have h2 := @List.find?_some Action (fun x => pyInStr d x.desc) a
            actions hfind
          simpa using h2
        have hmem : a ∈ actions := List.mem_of_find?_eq_some hfind
        have hnall : ¬ ∀ b ∈ actions, pyInStr d b.desc = false := by
          intro hall
          rw [hall a hmem] at hpa
          cases hpa
        by_cases hg : a.groups = []
        · simp [use_bot_action, hlim, hfind, hg, hnall]
        · simp [use_bot_action, hlim, hfind, hg, hnall]

/-- C6 witness: with an empty catalog and an admitted call, the dispatcher
reports not-found. -/
theorem claim_C6_selection_witness :
    (use_bot_action 1 [] [] ⟨[], []⟩ [] 0 0 0 "w").outcome =
        Outcome.notFound ↔
      (rateLimitedCall 1 0 ([] : List Time)).1 = false ∧
        ∀ a ∈ ([] : List Action), pyInStr [] a.desc = false :=
  (claim_C6_selection 1 [] [] ⟨[], []⟩ [] 0 0 0 "w").2.2.2

/-- C7: the parser produces exactly one `Action` per well-formed line, in
input order, and a line that fails to parse is skipped without affecting the
other lines. -/
theorem claim_C7_parse_lines (t : Int) (lines l₁ l₂ : List Str) (bad : Str)
    (hbad : parseLine t bad = none) :
    parse_actions t lines = lines.filterMap (parseLine t) ∧
    parse_actions t (l₁ ++ bad :: l₂) =
      parse_actions t l₁ ++ parse_actions t l₂ ∧
    (∀ line f1 f2 f3 f4 f5 b gs,
      splitMax ';' 4 line = [f1, f2, f3, f4, f5] →
      pyInt f1 = some b → parseGroups f2 = some gs →
      parseLine t line = some { bot_id := b, groups := gs, command := f3,
                                return_mode := pyStrip f4, desc := pyStrip f5,
                                timeout := t }) := by
  refine ⟨parse_actions_eq_filterMap t lines, ?_, ?_⟩
  · rw [parse_actions_append t l₁ (bad :: l₂)]
    simp [parse_actions, hbad]
  · intro line f1 f2 f3 f4 f5 b gs hsplit hint hgr
    simp [parseLine, hsplit, hint, hgr]

/-- C7 witness: the middle malformed line is skipped and the surrounding
well-formed lines are still parsed. -/
theorem claim_C7_parse_lines_witness :
    parseLine 30 (str "bad") = none ∧
    parse_actions 30 ([str "1;2;c;m;d"] ++ str "bad" :: [str "3;4;e;f;g"]) =
      parse_actions 30 [str "1;2;c;m;d"] ++ parse_actions 30 [str "3;4;e;f;g"] :=
  ⟨rfl,
   (claim_C7_parse_lines 30 [] [str "1;2;c;m;d"] [str "3;4;e;f;g"]
      (str "bad") rfl).2.1⟩

/-- C8: on teardown the pending table is cleared, and on the cleared table a
waking watchdog sends nothing and an inbound message resolves nothing — no
timeout or result message is ever delivered for a discarded entry. -/
theorem claim_C8_terminate (st : PluginState) (tm : Str) (rid : String)
    (info : PendingInfo) (sender group : Ident) (at_me : Bool) (now : Time)
    (msg : Str) :
    (terminate st).pending_requests = [] ∧
    wdWakeStep tm (terminate st).pending_requests rid info = ([], none) ∧
    on_all_message (terminate st).pending_requests sender group at_me now
      msg = ([], none, false) := by
  refine ⟨rfl, ?_, ?_⟩
  · simp [terminate, wdWakeStep, tblGet]
  · simp [terminate, on_all_message, scanPending]

/-- C8 witness: teardown on a state with one pending entry discards it and
nothing is ever sent for it. -/
theorem claim_C8_terminate_witness :
    (terminate ⟨[], [("r", (⟨1, 2, 9, [], 20⟩ : PendingInfo))]⟩).pending_requests = [] ∧
    wdWakeStep [] (terminate ⟨[], [("r", (⟨1, 2, 9, [], 20⟩ : PendingInfo))]⟩).pending_requests "r" ⟨1, 2, 9, [], 20⟩ = ([], none) ∧
    on_all_message (terminate ⟨[], [("r", (⟨1, 2, 9, [], 20⟩ : PendingInfo))]⟩).pending_requests 1 2 false 10 (str "pong") = ([], none, false) :=
  claim_C8_terminate ⟨[], [("r", ⟨1, 2, 9, [], 20⟩)]⟩ [] "r" ⟨1, 2, 9, [], 20⟩
    1 2 false 10 (str "pong")

/-- C9: removing a request identifier that is already absent is a safe
no-op: `pop` with a default leaves the table unchanged, and the watchdog's
presence check then sends nothing. -/
theorem claim_C9_idempotent_removal (t : Table) (rid : String) (tm : Str)
    (info : PendingInfo) (h : tblGet t rid = none) :
    tblPop t rid = t ∧ wdWakeStep tm t rid info = (t, none) := by
  have hfind : t.find? (fun p => decide (p.1 = rid)) = none := by
    unfold tblGet at h
    exact Option.map_eq_none'.mp h
  have hall := List.find?_eq_none.mp hfind
  have hpop : tblPop t rid = t := by
    rw [tblPop, List.filter_eq_self]
    intro p hp
    have hne := hall p hp
    simp at hne ⊢
    exact hne
  exact ⟨hpop, by simp [wdWakeStep, h, hpop]⟩

/-- C9 witness: popping a key absent from a nonempty table changes
nothing and the watchdog sends nothing. -/
theorem claim_C9_idempotent_removal_witness :
    tblGet [("a", (⟨1, 2, 9, [], 20⟩ : PendingInfo))] "b" = none ∧
    (tblPop [("a", (⟨1, 2, 9, [], 20⟩ : PendingInfo))] "b" =
        [("a", (⟨1, 2, 9, [], 20⟩ : PendingInfo))] ∧
      wdWakeStep [] [("a", (⟨1, 2, 9, [], 20⟩ : PendingInfo))] "b"
          ⟨1, 2, 9, [], 20⟩ =
        ([("a", (⟨1, 2, 9, [], 20⟩ : PendingInfo))], none)) :=
  ⟨rfl, claim_C9_idempotent_removal _ "b" [] ⟨1, 2, 9, [], 20⟩ rfl⟩

/-- C10: every action the parser produces carries the single global
configured timeout; a descriptor line has no per-action timeout field. -/
theorem claim_C10_uniform_timeout (t : Int) (lines : List Str) (a : Action)
    (ha : a ∈ parse_actions t lines) : a.timeout = t := by
  induction lines with
  | nil => cases ha
  | cons l rest ih =>
    simp only [parse_actions] at ha
    cases hl : parseLine t l with
    | none =>
      simp only [hl] at ha
      exact ih ha
    | some b =>
      simp only [hl] at ha
      rcases List.mem_cons.mp ha with h | h
      · rw [h]
        exact parseLine_timeout t l b hl
      · exact ih h

/-- C10 witness: the action parsed from a concrete line carries the
configured timeout 30. -/
theorem claim_C10_uniform_timeout_witness :
    ({ bot_id := 1, groups := [2], command := str "c",
       return_mode := str "m", desc := str "d", timeout := 30 } : Action) ∈
      parse_actions 30 [str "1;2;c;m;d"] ∧
    ({ bot_id := 1, groups := [2], command := str "c",
       return_mode := str "m", desc := str "d",
       timeout := 30 } : Action).timeout = 30 :=
  ⟨by decide, claim_C10_uniform_timeout 30 [str "1;2;c;m;d"] _ (by decide)⟩

end BotProxy
